import Mathlib

/-!
Verification of the retrieval-augmented resume-query subsystem of
`resume_parser_agent_openai.py`: text chunking (`get_text_chunks`),
vector-store build-or-load (`create_or_load_vector_store`) and cosine
similarity retrieval (`find_similar_chunks`).

Modelling conventions:
* Python strings are `List Char`; Python slices `text[i:j]` become
  `(text.drop i).take (j - i)`.
* NumPy float vectors are `List ℝ`. A cosine similarity value is an
  `Option ℝ`: `none` stands for IEEE NaN. The source divides
  `np.dot(M, v)` by `norm(M, axis=1) * norm(v)` unconditionally; the
  denominator is `0` exactly when a row or the query is the zero vector,
  in which case the numerator is also exactly `0`, and IEEE `0.0/0.0` is
  NaN. So `none` is produced exactly on the zero-denominator rows.
* `np.argsort` is modelled as a stable ascending sort of the indices by
  key (NumPy sorts NaN after every number, so `none` is greatest in the
  key order `optLE`). NumPy's default quicksort is its stable insertion
  sort only on arrays of at most 16 elements and guarantees no tie order
  above that threshold, so every theorem about the relative order of
  EQUAL keys carries an explicit `≤ 16` size hypothesis confining it to
  the regime where this model is exact; facts that are independent of
  tie order (result lengths, prefix monotonicity, scale invariance) hold
  for any deterministic sort and carry no such hypothesis.
* An empty build pickles `np.array([])`, which is one-dimensional with
  shape `(0,)`, so on the empty store line 74 raises (`np.dot` of the
  shape-`(0,)` matrix with a nonempty query is a mismatched 1-D inner
  product; with an empty query the subsequent `norm(..., axis=1)` on a
  1-D array raises instead). `similaritiesNp`/`find_similar_chunksNp`
  carry that error path; `similarities` is the per-row arithmetic of
  line 74 for the genuinely two-dimensional (nonempty) case.
* Python's slice `a[-k:]` keeps the last `min k (len a)` elements when
  `k ≥ 1` but is the whole list when `k = 0`; `takeLastPy` reproduces
  exactly that.
* File I/O in `create_or_load_vector_store` is modelled by explicit
  state passing: the pickle file content is an `Option VectorStore`
  argument and result component; collaborator failures (pypdf
  extraction, OpenAI embedding) are `Except ErrKind` values threaded in.
-/

set_option maxHeartbeats 1000000

/-- Python `range(0, stop, step)` for `step ≥ 1`: the `⌈stop/step⌉`
numbers `0, step, 2*step, ...` below `stop`. (`step = 0` raises in
Python and never occurs in the program: `get_text_chunks` is only
invoked with its defaults `1000`/`200`.) -/
def pyRangeStep (stop step : Nat) : List Nat :=
  (List.range ((stop + step - 1) / step)).map (fun j => j * step)

/-- Model of `get_text_chunks(text, chunk_size=1000, overlap=200)` from
`resume_parser_agent_openai.py` lines 23-30:
`text[i:i + chunk_size] for i in range(0, len(text), chunk_size - overlap)`. -/
def get_text_chunks (text : List Char) (chunk_size : Nat := 1000) (overlap : Nat := 200) :
    List (List Char) :=
  (pyRangeStep text.length (chunk_size - overlap)).map
    (fun i => (text.drop i).take chunk_size)

/-- The dot product `np.dot` of two equal-length float vectors (the
program only ever forms dot products of equal-dimension vectors). -/
noncomputable def dotList (a b : List ℝ) : ℝ :=
  (List.zipWith (fun x y => x * y) a b).sum

/-- Model of `np.linalg.norm v`, i.e. `sqrt (v · v)`. -/
noncomputable def norm2 (v : List ℝ) : ℝ :=
  Real.sqrt (dotList v v)

/-- One entry of `np.dot(vectors, query) / (norm(vectors, axis=1) * norm(query))`
(line 74). The denominator is zero exactly when `row` or `query_vector`
is a zero vector, and then the numerator is exactly zero too, so the
float division is IEEE `0.0/0.0` = NaN, modelled as `none`. -/
noncomputable def cosineSim (row query_vector : List ℝ) : Option ℝ :=
  if norm2 row * norm2 query_vector = 0 then none
  else some (dotList row query_vector / (norm2 row * norm2 query_vector))

/-- The `vector_store` dict: the `"chunks"` list and the `"vectors"`
matrix (one row per chunk), aligned by index. -/
structure VectorStore where
  chunks : List (List Char)
  vectors : List (List ℝ)

/-- Line 74, arithmetic part: the `similarities` array, one cosine
similarity per stored row, for a store whose pickled matrix is
genuinely two-dimensional (nonempty, aligned rows). The empty store's
matrix is the one-dimensional `np.array([])` and line 74 then raises
rather than producing an array; `similaritiesNp` models that. -/
noncomputable def similarities (store : VectorStore) (query_vector : List ℝ) :
    List (Option ℝ) :=
  store.vectors.map (fun row => cosineSim row query_vector)

/-- NaN-last key order on similarity values: NumPy sorts NaN after every
number, so `none` is greatest. -/
def optLE : Option ℝ → Option ℝ → Prop
  | some x, some y => x ≤ y
  | _, none => True
  | none, some _ => False

def optLT (a b : Option ℝ) : Prop := optLE a b ∧ ¬ optLE b a

/-- Order used to model `np.argsort`: ascending by key, equal keys kept
in ascending original position (stability). -/
def rankLE (a b : Nat × Option ℝ) : Prop :=
  optLT a.2 b.2 ∨ (a.2 = b.2 ∧ a.1 ≤ b.1)

noncomputable instance : DecidableRel rankLE := fun _ _ => Classical.dec _

instance : IsTotal (Nat × Option ℝ) rankLE where
  total := by
    have hto : ∀ x y : Option ℝ, optLE x y ∨ optLE y x := fun x y => by
      cases x with
      | none =>
        cases y with
        | none => exact Or.inl trivial
        | some b => exact Or.inr trivial
      | some a =>
        cases y with
        | none => exact Or.inl trivial
        | some b => exact le_total a b
    have hanti : ∀ x y : Option ℝ, optLE x y → optLE y x → x = y := fun x y => by
      cases x with
      | none =>
        cases y with
        | none => exact fun _ _ => rfl
        | some b => exact fun h _ => h.elim
      | some a =>
        cases y with
        | none => exact fun _ h => h.elim
        | some b => exact fun h1 h2 => by rw [le_antisymm h1 h2]
    rintro ⟨i, x⟩ ⟨j, y⟩
    rcases hto x y with h | h
    · by_cases h' : optLE y x
      · rcases hanti x y h h' with rfl
        rcases Nat.le_total i j with hn | hn
        · exact Or.inl (Or.inr ⟨rfl, hn⟩)
        · exact Or.inr (Or.inr ⟨rfl, hn⟩)
      · exact Or.inl (Or.inl ⟨h, h'⟩)
    · by_cases h' : optLE x y
      · rcases hanti y x h h' with rfl
        rcases Nat.le_total i j with hn | hn
        · exact Or.inl (Or.inr ⟨rfl, hn⟩)
        · exact Or.inr (Or.inr ⟨rfl, hn⟩)
      · exact Or.inr (Or.inl ⟨h, h'⟩)

instance : IsTrans (Nat × Option ℝ) rankLE where
  trans := by
    have hle : ∀ x y z : Option ℝ, optLE x y → optLE y z → optLE x z := fun x y z => by
      cases x with
      | none =>
        cases z with
        | none => exact fun _ _ => trivial
        | some c =>
          cases y with
          | none => exact fun _ h => h.elim
          | some b => exact fun h _ => h.elim
      | some a =>
        cases z with
        | none => exact fun _ _ => trivial
        | some c =>
          cases y with
          | none => exact fun _ h => h.elim
          | some b => exact fun h1 h2 => le_trans h1 h2
    rintro ⟨i, x⟩ ⟨j, y⟩ ⟨k, z⟩ hab hbc
    rcases hab with h1 | ⟨rfl, h1⟩
    · rcases hbc with h2 | ⟨rfl, h2⟩
      · exact Or.inl ⟨hle _ _ _ h1.1 h2.1, fun hca => h1.2 (hle _ _ _ h2.1 hca)⟩
      · exact Or.inl h1
    · rcases hbc with h2 | ⟨rfl, h2⟩
      · exact Or.inl h2
      · exact Or.inr ⟨rfl, Nat.le_trans h1 h2⟩

/-- Model of `np.argsort(keys)` as a deterministic stable ascending
sort of the indices by key. NumPy's default `kind='quicksort'` is
introsort, which coincides with its stable insertion sort on arrays of
at most 16 elements but guarantees no order among EQUAL keys above that
threshold; theorems about tie order therefore carry an explicit `≤ 16`
size hypothesis restricting them to the regime where this model is
exact, while facts independent of tie order hold for every NumPy sort
kind. -/
noncomputable def argsortNp (keys : List (Option ℝ)) : List Nat :=
  (List.insertionSort rankLE keys.enum).map Prod.fst

/-- Python `a[-k:]`: the last `min k (len a)` elements for `k ≥ 1`, but
the whole list for `k = 0` (since `-0 == 0`, the slice is `a[0:]`). -/
def takeLastPy {α : Type _} (k : Nat) (l : List α) : List α :=
  if k = 0 then l else l.drop (l.length - k)

/-- Line 76: `top_indices = np.argsort(similarities)[-top_k:][::-1]`. -/
noncomputable def top_indices (query_embedding : List ℝ) (store : VectorStore)
    (top_k : Nat) : List Nat :=
  (takeLastPy top_k (argsortNp (similarities store query_embedding))).reverse

/-- Model of `find_similar_chunks(query_embedding, vector_store, top_k=5)`, lines
70-78: returns `[vector_store["chunks"][i] for i in top_indices]`. -/
noncomputable def find_similar_chunks (query_embedding : List ℝ) (store : VectorStore)
    (top_k : Nat := 5) : List (List Char) :=
  (top_indices query_embedding store top_k).map (fun i => store.chunks.getD i [])

/-- The error raised by NumPy at line 74 on the empty store. -/
inductive NpError where
  | valueError : NpError
deriving DecidableEq

/-- Line 74 with NumPy's array-shape behaviour: an empty Python list
pickles as the one-dimensional `np.array([])` of shape `(0,)`, and the
line then raises (`ValueError` from `np.dot((0,), (d,))` for a query of
positive dimension; an axis error from `norm(..., axis=1)` on the 1-D
array for an empty query) instead of returning an array. A nonempty
store of aligned rows is a true 2-D matrix and the line produces the
per-row similarities. -/
noncomputable def similaritiesNp (store : VectorStore) (query_vector : List ℝ) :
    Except NpError (List (Option ℝ)) :=
  if store.vectors = [] then Except.error NpError.valueError
  else Except.ok (similarities store query_vector)

/-- `find_similar_chunks`, lines 70-78, with the line-74 error path of
`similaritiesNp` made explicit: the function returns its chunk list
only when line 74 returns, and propagates the raised error otherwise. -/
noncomputable def find_similar_chunksNp (query_embedding : List ℝ) (store : VectorStore)
    (top_k : Nat := 5) : Except NpError (List (List Char)) :=
  match similaritiesNp store query_embedding with
  | Except.error e => Except.error e
  | Except.ok sims =>
    Except.ok (((takeLastPy top_k (argsortNp sims)).reverse).map
      (fun i => store.chunks.getD i []))

/-- Failure kinds of the collaborators of `create_or_load_vector_store`
together with the `RetrievalBuildError` the spec postulates (no such
wrapper exists anywhere in the source). -/
inductive ErrKind where
  | extractionError : ErrKind
  | embeddingError : ErrKind
  | retrievalBuildError : ErrKind
deriving DecidableEq

/-- Model of `create_or_load_vector_store(resume_file, storage_file, force_reindex)`,
lines 39-68, with the effects made explicit: `extract_result` is the
outcome of `extract_text_from_pdf`, `embed` the outcome of
`get_embeddings` on the chunk list, `storage` the current content of
`storage_file` (`none` = file absent), `force_reindex` the flag. The
result pairs the returned value (or the propagated, unwrapped
collaborator exception) with the new file content. The code only opens
the storage file for writing after extraction and embedding both
succeeded, so on those failures the file is untouched. -/
def create_or_load_vector_store (extract_result : Except ErrKind (List Char))
    (embed : List (List Char) → Except ErrKind (List (List ℝ)))
    (storage : Option VectorStore) (force_reindex : Bool) :
    Except ErrKind VectorStore × Option VectorStore :=
  match storage, force_reindex with
  | some vs, false => (Except.ok vs, some vs)
  | _, _ =>
    match extract_result with
    | Except.error e => (Except.error e, storage)
    | Except.ok resume_text =>
      match embed (get_text_chunks resume_text) with
      | Except.error e => (Except.error e, storage)
      | Except.ok embeddings =>
        (Except.ok ⟨get_text_chunks resume_text, embeddings⟩,
         some ⟨get_text_chunks resume_text, embeddings⟩)

/-- A stand-in embedding collaborator that embeds every batch as the
empty vector list. -/
def embedNil : List (List Char) → Except ErrKind (List (List ℝ)) :=
  fun _ => Except.ok []

/-- A stand-in embedding collaborator that always fails with the raw
`embeddingError`. -/
def embedFail : List (List Char) → Except ErrKind (List (List ℝ)) :=
  fun _ => Except.error ErrKind.embeddingError

/-- A two-chunk store whose rows are identical (hence tied similarities
for every query). -/
noncomputable def storePair : VectorStore :=
  ⟨[['a'], ['b']], [[1], [1]]⟩

/-- A one-chunk store. -/
noncomputable def storeOne : VectorStore :=
  ⟨[['a']], [[1]]⟩

/-- A one-chunk store whose single stored vector is the zero vector. -/
noncomputable def storeZero : VectorStore :=
  ⟨[['a']], [[0]]⟩

/-- The empty store. -/
def storeEmpty : VectorStore :=
  ⟨[], []⟩

theorem length_pyRangeStep (stop step : Nat) :
    (pyRangeStep stop step).length = (stop + step - 1) / step := by
  simp [pyRangeStep]

theorem get_text_chunks_length (text : List Char) (chunk_size overlap : Nat) :
    (get_text_chunks text chunk_size overlap).length
      = (text.length + (chunk_size - overlap) - 1) / (chunk_size - overlap) := by
  simp [get_text_chunks, pyRangeStep]

theorem lt_chunk_count_iff (N s j : Nat) (hs : 0 < s) :
    j < (N + s - 1) / s ↔ j * s < N := by
  have hmul : (j + 1) * s = j * s + s := by ring
  rw [Nat.lt_iff_add_one_le, Nat.le_div_iff_mul_le hs, hmul]
  omega

theorem get_text_chunks_getElem? (text : List Char) (chunk_size overlap j : Nat) :
    (get_text_chunks text chunk_size overlap)[j]?
      = if j < (text.length + (chunk_size - overlap) - 1) / (chunk_size - overlap)
        then some ((text.drop (j * (chunk_size - overlap))).take chunk_size)
        else none := by
  simp only [get_text_chunks, pyRangeStep, List.getElem?_map, List.getElem?_range']
  by_cases hj : j < (text.length + (chunk_size - overlap) - 1) / (chunk_size - overlap)
  · simp [List.getElem?_range, hj]
  · simp [List.getElem?_range, hj]
    omega

theorem get_text_chunks_getD (text : List Char) (chunk_size overlap j : Nat)
    (hj : j < (text.length + (chunk_size - overlap) - 1) / (chunk_size - overlap)) :
    (get_text_chunks text chunk_size overlap).getD j []
      = (text.drop (j * (chunk_size - overlap))).take chunk_size := by
  simp [List.getD_eq_getElem?_getD, get_text_chunks_getElem?, hj]

theorem get_text_chunks_getD_of_ge (text : List Char) (chunk_size overlap j : Nat)
    (hj : ¬ j < (text.length + (chunk_size - overlap) - 1) / (chunk_size - overlap)) :
    (get_text_chunks text chunk_size overlap).getD j [] = [] := by
  simp [List.getD_eq_getElem?_getD, get_text_chunks_getElem?, hj]

theorem get_text_chunks_covers (text : List Char) (chunk_size overlap p : Nat)
    (h : overlap < chunk_size) (hp : p < text.length) :
    ∃ j, j < (get_text_chunks text chunk_size overlap).length ∧
      j * (chunk_size - overlap) ≤ p ∧
      ((get_text_chunks text chunk_size overlap).getD j [])[p - j * (chunk_size - overlap)]?
        = text[p]? := by
  have hs1 : 0 < chunk_size - overlap := by omega
  have hjle : (p / (chunk_size - overlap)) * (chunk_size - overlap) ≤ p :=
    Nat.div_mul_le_self p _
  have hjlt : p / (chunk_size - overlap)
      < (text.length + (chunk_size - overlap) - 1) / (chunk_size - overlap) :=
    (lt_chunk_count_iff _ _ _ hs1).mpr (lt_of_le_of_lt hjle hp)
  refine ⟨p / (chunk_size - overlap), ?_, hjle, ?_⟩
  · rw [get_text_chunks_length]
    exact hjlt
  · rw [get_text_chunks_getD _ _ _ _ hjlt]
    have hcomm : (p / (chunk_size - overlap)) * (chunk_size - overlap)
        = (chunk_size - overlap) * (p / (chunk_size - overlap)) := Nat.mul_comm _ _
    have hdm := Nat.div_add_mod p (chunk_size - overlap)
    have hmlt := Nat.mod_lt p hs1
    have hlt : p - (p / (chunk_size - overlap)) * (chunk_size - overlap) < chunk_size := by
      omega
    rw [ List.getElem?_take_of_lt hlt, List.getElem?_drop]
    congr 1
    omega

theorem get_text_chunks_consecutive (text : List Char) (chunk_size overlap j : Nat)
    (h : overlap < chunk_size) :
    ((get_text_chunks text chunk_size overlap).getD j []).drop (chunk_size - overlap)
      = ((get_text_chunks text chunk_size overlap).getD (j + 1) []).take overlap := by
  have hs1 : 0 < chunk_size - overlap := by omega
  have hexp : (j + 1) * (chunk_size - overlap) = j * (chunk_size - overlap)
      + (chunk_size - overlap) := by ring
  by_cases hj1 : j + 1
      < (text.length + (chunk_size - overlap) - 1) / (chunk_size - overlap)
  · have hj : j < (text.length + (chunk_size - overlap) - 1) / (chunk_size - overlap) := by
      omega
    rw [get_text_chunks_getD _ _ _ _ hj, get_text_chunks_getD _ _ _ _ hj1]
    apply List.ext_getElem?
    intro m
    rw [List.getElem?_drop, List.take_take, Nat.min_eq_left h.le]
    by_cases hm : m < overlap
    · have hsm : chunk_size - overlap + m < chunk_size := by omega
      rw [ List.getElem?_take_of_lt hsm, List.getElem?_take_of_lt hm,
        List.getElem?_drop, List.getElem?_drop]
      congr 1
      omega
    · have h1 : ((text.drop (j * (chunk_size - overlap))).take chunk_size).length
          ≤ chunk_size - overlap + m := by
        rw [List.length_take]
        omega
      have h2 : ((text.drop ((j + 1) * (chunk_size - overlap))).take overlap).length
          ≤ m := by
        rw [List.length_take]
        omega
      rw [List.getElem?_eq_none h1, List.getElem?_eq_none h2]
  · by_cases hj : j < (text.length + (chunk_size - overlap) - 1) / (chunk_size - overlap)
    · have hend : text.length ≤ (j + 1) * (chunk_size - overlap) :=
        Nat.le_of_not_lt fun hc => hj1 ((lt_chunk_count_iff _ _ _ hs1).mpr hc)
      rw [get_text_chunks_getD _ _ _ _ hj, get_text_chunks_getD_of_ge _ _ _ _ hj1,
        List.take_nil]
      apply List.drop_eq_nil_of_le
      rw [List.length_take, List.length_drop]
      omega
    · have hj1' : ¬ j + 1
          < (text.length + (chunk_size - overlap) - 1) / (chunk_size - overlap) := hj1
      rw [get_text_chunks_getD_of_ge _ _ _ _ hj, get_text_chunks_getD_of_ge _ _ _ _ hj1']
      simp

theorem get_text_chunks_overlap_length (text : List Char) (chunk_size overlap j : Nat)
    (h : overlap < chunk_size)
    (hfull : j * (chunk_size - overlap) + chunk_size ≤ text.length) :
    (((get_text_chunks text chunk_size overlap).getD j []).drop
        (chunk_size - overlap)).length = overlap := by
  have hs1 : 0 < chunk_size - overlap := by omega
  have hj : j < (text.length + (chunk_size - overlap) - 1) / (chunk_size - overlap) :=
    (lt_chunk_count_iff _ _ _ hs1).mpr (by omega)
  rw [get_text_chunks_getD _ _ _ _ hj, List.length_drop, List.length_take,
    List.length_drop]
  omega

/-- Claim C7: for `0 ≤ overlap < chunk_size`, every character position of
the text is covered by some chunk (the chunk holds exactly the text's
character there), consecutive chunks agree on their shared region (the
last `chunk_size - overlap`-onward part of chunk `j` equals the first
`overlap` characters of chunk `j+1`), and that shared region has length
exactly `overlap` whenever chunk `j` is a full, untruncated window. -/
theorem get_text_chunks_coverage_and_overlap (text : List Char) (chunk_size overlap : Nat)
    (h : overlap < chunk_size) :
    (∀ p, p < text.length →
      ∃ j, j < (get_text_chunks text chunk_size overlap).length ∧
        j * (chunk_size - overlap) ≤ p ∧
        ((get_text_chunks text chunk_size overlap).getD j [])[p - j * (chunk_size - overlap)]?
          = text[p]?) ∧
    (∀ j, ((get_text_chunks text chunk_size overlap).getD j []).drop (chunk_size - overlap)
        = ((get_text_chunks text chunk_size overlap).getD (j + 1) []).take overlap) ∧
    (∀ j, j * (chunk_size - overlap) + chunk_size ≤ text.length →
      (((get_text_chunks text chunk_size overlap).getD j []).drop
          (chunk_size - overlap)).length = overlap) :=
  ⟨fun p hp => get_text_chunks_covers text chunk_size overlap p h hp,
   fun j => get_text_chunks_consecutive text chunk_size overlap j h,
   fun j hfull => get_text_chunks_overlap_length text chunk_size overlap j h hfull⟩

/-- Claim C7 witness: the statement instantiated on a 10-character text
with `chunk_size = 5`, `overlap = 2` (chunks start at 0, 3, 6, 9),
coverage checked at position 7 and the shared region at the chunk pair
(1, 2), whose first chunk is a full window. -/
theorem get_text_chunks_coverage_and_overlap_witness :
    2 < 5 ∧
    (∃ j, j < (get_text_chunks (List.replicate 10 'a') 5 2).length ∧
      j * (5 - 2) ≤ 7 ∧
      ((get_text_chunks (List.replicate 10 'a') 5 2).getD j [])[7 - j * (5 - 2)]?
        = (List.replicate 10 'a')[7]?) ∧
    ((get_text_chunks (List.replicate 10 'a') 5 2).getD 1 []).drop (5 - 2)
      = ((get_text_chunks (List.replicate 10 'a') 5 2).getD 2 []).take 2 ∧
    (((get_text_chunks (List.replicate 10 'a') 5 2).getD 1 []).drop (5 - 2)).length = 2 :=
  ⟨by norm_num,
   (get_text_chunks_coverage_and_overlap (List.replicate 10 'a') 5 2 (by norm_num)).1 7
     (by simp),
   (get_text_chunks_coverage_and_overlap (List.replicate 10 'a') 5 2 (by norm_num)).2.1 1,
   (get_text_chunks_coverage_and_overlap (List.replicate 10 'a') 5 2 (by norm_num)).2.2 1
     (by simp)⟩

/-- Claim C1, amended: for `0 ≤ overlap < chunk_size` the chunker
produces exactly `⌈len(text) / (chunk_size - overlap)⌉` chunks (one per
window start in `range(0, len(text), chunk_size - overlap)`), not
`⌈(len(text) - overlap) / (chunk_size - overlap)⌉`; the chunk sequence
is a pure function of the text and the parameters. -/
theorem get_text_chunks_count (text : List Char) (chunk_size overlap : Nat)
    (_h : overlap < chunk_size) :
    (get_text_chunks text chunk_size overlap).length
      = (text.length + (chunk_size - overlap) - 1) / (chunk_size - overlap) :=
  get_text_chunks_length text chunk_size overlap

/-- Claim C1 witness: a 10-character text with `chunk_size = 5`,
`overlap = 2` yields `⌈10/3⌉ = 4` chunks. -/
theorem get_text_chunks_count_witness :
    2 < 5 ∧ (get_text_chunks (List.replicate 10 'a') 5 2).length
      = ((List.replicate 10 'a').length + (5 - 2) - 1) / (5 - 2) :=
  ⟨by norm_num, get_text_chunks_count (List.replicate 10 'a') 5 2 (by norm_num)⟩

/-- Claim C1 counterexample: for a 10-character text with
`chunk_size = 5`, `overlap = 2` (so `len(T) > overlap`), the code
produces 4 chunks (starts 0, 3, 6, 9), while the claimed formula
`⌈(len(T) - overlap) / (chunk_size - overlap)⌉ = ⌈8/3⌉` gives 3. -/
theorem get_text_chunks_count_cex :
    (get_text_chunks (List.replicate 10 'a') 5 2).length = 4 ∧
    (get_text_chunks (List.replicate 10 'a') 5 2).length
      ≠ ((List.replicate 10 'a').length - 2 + (5 - 2) - 1) / (5 - 2) := by
  constructor
  · decide
  · decide

/-- Claim C4, amended: a 2000-character text chunked with
`chunk_size = 1000`, `overlap = 200` produces exactly 3 chunks (window
starts 0, 800 and 1600), covering positions 0-999, 800-1799 and
1600-1999, not 2 chunks. -/
theorem get_text_chunks_2000 (text : List Char) (h : text.length = 2000) :
    get_text_chunks text 1000 200
      = [text.take 1000, (text.drop 800).take 1000, (text.drop 1600).take 1000] := by
  have hr : pyRangeStep 2000 (1000 - 200) = [0, 800, 1600] := by decide
  unfold get_text_chunks
  rw [h, hr]
  simp

/-- Claim C4 witness: the amended statement evaluated on a concrete
2000-character text. -/
theorem get_text_chunks_2000_witness :
    (List.replicate 2000 'a').length = 2000 ∧
    get_text_chunks (List.replicate 2000 'a') 1000 200
      = [(List.replicate 2000 'a').take 1000,
         ((List.replicate 2000 'a').drop 800).take 1000,
         ((List.replicate 2000 'a').drop 1600).take 1000] :=
  ⟨by rw [List.length_replicate], get_text_chunks_2000 (List.replicate 2000 'a')
    (by rw [List.length_replicate])⟩

/-- Claim C4 counterexample: on a 2000-character text with
`chunk_size = 1000` and `overlap = 200` the chunker yields 3 chunks, not
the claimed 2. -/
theorem get_text_chunks_2000_cex :
    (get_text_chunks (List.replicate 2000 'a') 1000 200).length ≠ 2 := by
  rw [get_text_chunks_length, List.length_replicate]
  norm_num

theorem get_text_chunks_nil (chunk_size overlap : Nat) :
    get_text_chunks [] chunk_size overlap = [] := by
  unfold get_text_chunks pyRangeStep
  have h0 : (([] : List Char).length + (chunk_size - overlap) - 1)
      / (chunk_size - overlap) = 0 := by
    rcases Nat.eq_zero_or_pos (chunk_size - overlap) with h | h
    · simp [h]
    · rw [List.length_nil, Nat.zero_add]
      exact Nat.div_eq_of_lt (by omega)
  rw [h0]
  simp

/-- Claim C10: chunking the empty text yields the empty chunk list (no
empty chunk, no failure), for any parameters; consequently a build over
a document whose extracted text is empty passes the empty chunk list to
the embedder and stores a vector store with no chunks and no vectors. -/
theorem get_text_chunks_empty :
    (∀ chunk_size overlap, get_text_chunks [] chunk_size overlap = []) ∧
    (∀ embed : List (List Char) → Except ErrKind (List (List ℝ)),
      embed [] = Except.ok [] →
      create_or_load_vector_store (Except.ok []) embed none false
        = (Except.ok ⟨[], []⟩, some ⟨[], []⟩)) := by
  refine ⟨get_text_chunks_nil, fun embed h => ?_⟩
  simp [create_or_load_vector_store, get_text_chunks_nil, h]

/-- Claim C10 witness: the statement applied at `chunk_size = 1000`,
`overlap = 200` and an embedder that maps the empty batch to the empty
vector list. -/
theorem get_text_chunks_empty_witness :
    get_text_chunks [] 1000 200 = [] ∧
    (embedNil [] = Except.ok [] ∧
      create_or_load_vector_store (Except.ok []) embedNil none false
        = (Except.ok ⟨[], []⟩, some ⟨[], []⟩)) :=
  ⟨get_text_chunks_empty.1 1000 200, rfl, get_text_chunks_empty.2 embedNil rfl⟩

/-- Claim C5, amended: when the vector store is (re)built (file absent
or `force_reindex` set) and extraction or embedding fails, the failure
propagates as the raw collaborator error, unwrapped — the code defines
no `RetrievalBuildError` — and the storage file is left exactly as it
was (the file is only opened for writing after extraction and embedding
both succeed, so those failures leave no partial file; the successful
write itself is a direct overwrite, not a write-to-temporary-then-move). -/
theorem create_or_load_error_propagation (e : ErrKind)
    (embed : List (List Char) → Except ErrKind (List (List ℝ)))
    (storage : Option VectorStore) (force_reindex : Bool)
    (h : storage = none ∨ force_reindex = true) :
    create_or_load_vector_store (Except.error e) embed storage force_reindex
        = (Except.error e, storage) ∧
    ∀ text, embed (get_text_chunks text) = Except.error e →
      create_or_load_vector_store (Except.ok text) embed storage force_reindex
        = (Except.error e, storage) := by
  rcases h with h | h
  · subst h
    exact ⟨rfl, fun text ht => by simp [create_or_load_vector_store, ht]⟩
  · subst h
    cases storage with
    | none => exact ⟨rfl, fun text ht => by simp [create_or_load_vector_store, ht]⟩
    | some vs => exact ⟨rfl, fun text ht => by simp [create_or_load_vector_store, ht]⟩

/-- Claim C5 witness: a build with no existing file whose embedding call
fails propagates `embeddingError` itself and leaves the file absent. -/
theorem create_or_load_error_propagation_witness :
    ((none : Option VectorStore) = none ∨ false = true) ∧
    (create_or_load_vector_store (Except.error ErrKind.embeddingError)
        embedFail none false
        = (Except.error ErrKind.embeddingError, none) ∧
      ∀ text, embedFail (get_text_chunks text) = Except.error ErrKind.embeddingError →
        create_or_load_vector_store (Except.ok text) embedFail none false
          = (Except.error ErrKind.embeddingError, none)) :=
  ⟨Or.inl rfl,
   create_or_load_error_propagation ErrKind.embeddingError embedFail none false
     (Or.inl rfl)⟩

/-- Claim C5 counterexample: a rebuild whose extraction fails fails with
the raw `extractionError`, which is not the claimed
`RetrievalBuildError`. -/
theorem create_or_load_error_cex :
    (create_or_load_vector_store (Except.error ErrKind.extractionError)
        embedNil none false).1
      = Except.error ErrKind.extractionError ∧
    (create_or_load_vector_store (Except.error ErrKind.extractionError)
        embedNil none false).1
      ≠ Except.error ErrKind.retrievalBuildError := by
  refine ⟨rfl, ?_⟩
  intro hcontra
  have : ErrKind.extractionError = ErrKind.retrievalBuildError :=
    Except.error.inj (by exact hcontra)
  exact ErrKind.noConfusion this

theorem length_takeLastPy {α : Type _} (k : Nat) (l : List α) :
    (takeLastPy k l).length = if k = 0 then l.length else min k l.length := by
  by_cases h : k = 0
  · simp [takeLastPy, h]
  · simp only [takeLastPy, if_neg h, List.length_drop]
    omega

theorem takeLastPy_sublist {α : Type _} (k : Nat) (l : List α) :
    List.Sublist (takeLastPy k l) l := by
  by_cases h : k = 0
  · simp [takeLastPy, h]
  · simp only [takeLastPy, if_neg h]
    exact List.drop_sublist _ _

theorem takeLastPy_map {α β : Type _} (f : α → β) (k : Nat) (l : List α) :
    takeLastPy k (l.map f) = (takeLastPy k l).map f := by
  by_cases h : k = 0
  · simp [takeLastPy, h]
  · simp [takeLastPy, h, List.map_drop]

theorem takeLastPy_suffix_mono {α : Type _} (a b : Nat) (l : List α)
    (ha : a ≠ 0) (hab : a ≤ b) : takeLastPy a l <:+ takeLastPy b l := by
  have hb : b ≠ 0 := by omega
  simp only [takeLastPy, if_neg ha, if_neg hb]
  exact List.drop_suffix_drop_left l (by omega)

theorem length_argsortNp (keys : List (Option ℝ)) :
    (argsortNp keys).length = keys.length := by
  simp [argsortNp, List.length_insertionSort, List.enum_length]

theorem length_find_similar_chunks (q : List ℝ) (store : VectorStore) (k : Nat) :
    (find_similar_chunks q store k).length
      = if k = 0 then store.vectors.length else min k store.vectors.length := by
  simp [find_similar_chunks, top_indices, length_takeLastPy, length_argsortNp,
    similarities]

/-- Claim C6, amended: for a nonempty store the line-74 computation
returns, and the result has `min k n` chunks for every `k ≥ 1` (so
`k > n` returns all `n` chunks ranked) but all `n` chunks for `k = 0`,
because the Python slice `[-0:]` is the whole array; the empty store
does NOT yield an empty result: its pickled matrix is the
one-dimensional `np.array([])`, so line 74 raises `ValueError` instead
of returning. -/
theorem find_similar_chunks_count (q : List ℝ) (store : VectorStore) (k : Nat) :
    (store.vectors ≠ [] →
      find_similar_chunksNp q store k = Except.ok (find_similar_chunks q store k) ∧
      (find_similar_chunks q store k).length
        = (if k = 0 then store.vectors.length else min k store.vectors.length)) ∧
    (store.vectors = [] →
      find_similar_chunksNp q store k = Except.error NpError.valueError) := by
  constructor
  · intro h
    refine ⟨?_, length_find_similar_chunks q store k⟩
    simp [find_similar_chunksNp, similaritiesNp, h, find_similar_chunks, top_indices]
  · intro h
    simp [find_similar_chunksNp, similaritiesNp, h]

/-- Claim C6 witness: the amended statement exercised on the one-chunk
store with `k = 0` (all one chunk is returned) and on the empty store
(line 74 raises rather than returning an empty result). -/
theorem find_similar_chunks_count_witness :
    (storeOne.vectors ≠ [] ∧
      find_similar_chunksNp [(1:ℝ)] storeOne 0
        = Except.ok (find_similar_chunks [(1:ℝ)] storeOne 0) ∧
      (find_similar_chunks [(1:ℝ)] storeOne 0).length
        = (if (0:Nat) = 0 then storeOne.vectors.length
           else min 0 storeOne.vectors.length)) ∧
    (storeEmpty.vectors = [] ∧
      find_similar_chunksNp [(1:ℝ)] storeEmpty 0 = Except.error NpError.valueError) :=
  ⟨⟨by simp [storeOne], (find_similar_chunks_count [1] storeOne 0).1 (by simp [storeOne])⟩,
   ⟨rfl, (find_similar_chunks_count [1] storeEmpty 0).2 rfl⟩⟩

/-- Claim C6 counterexample: on a one-chunk store with `k = 0` the code
returns 1 chunk, not the claimed `min 0 1 = 0`. -/
theorem find_similar_chunks_count_cex :
    (find_similar_chunks [(1:ℝ)] storeOne 0).length = 1 ∧ (1:Nat) ≠ min 0 1 := by
  refine ⟨?_, by decide⟩
  rw [length_find_similar_chunks]
  simp [storeOne]

/-- Claim C8: the `k = 3` retrieval result is a prefix of the `k = 5`
result for the same query vector and store. -/
theorem find_similar_chunks_prefix_mono (q : List ℝ) (store : VectorStore) :
    find_similar_chunks q store 3 <+: find_similar_chunks q store 5 := by
  unfold find_similar_chunks top_indices
  apply List.IsPrefix.map
  rw [ List.reverse_prefix]
  exact takeLastPy_suffix_mono 3 5 _ (by norm_num) (by norm_num)

theorem dotList_cons (x y : ℝ) (xs ys : List ℝ) :
    dotList (x :: xs) (y :: ys) = x * y + dotList xs ys := by
  simp [dotList]

theorem dotList_map_smul (c : ℝ) (a b : List ℝ) :
    dotList a (b.map (fun x => c * x)) = c * dotList a b := by
  induction a generalizing b with
  | nil => simp [dotList]
  | cons x xs ih =>
    cases b with
    | nil => simp [dotList]
    | cons y ys =>
      rw [List.map_cons, dotList_cons, dotList_cons, ih]
      ring

theorem dotList_comm (a b : List ℝ) : dotList a b = dotList b a := by
  induction a generalizing b with
  | nil => cases b <;> simp [dotList]
  | cons x xs ih =>
    cases b with
    | nil => simp [dotList]
    | cons y ys =>
      rw [dotList_cons, dotList_cons, ih]
      ring

theorem norm2_map_smul (c : ℝ) (hc : 0 ≤ c) (v : List ℝ) :
    norm2 (v.map (fun x => c * x)) = c * norm2 v := by
  unfold norm2
  have h1 : dotList (v.map (fun x => c * x)) (v.map (fun x => c * x))
      = c ^ 2 * dotList v v := by
    rw [dotList_map_smul, dotList_comm, dotList_map_smul]
    ring
  rw [h1, Real.sqrt_mul (sq_nonneg c), Real.sqrt_sq hc]

theorem cosineSim_smul (c : ℝ) (hc : 0 < c) (row q : List ℝ) :
    cosineSim row (q.map (fun x => c * x)) = cosineSim row q := by
  unfold cosineSim
  rw [norm2_map_smul c hc.le, dotList_map_smul]
  have hre : norm2 row * (c * norm2 q) = c * (norm2 row * norm2 q) := by ring
  by_cases h : norm2 row * norm2 q = 0
  · rw [if_pos h, if_pos (by rw [hre, h, mul_zero])]
  · rw [if_neg h, if_neg (by rw [hre]; exact mul_ne_zero (ne_of_gt hc) h)]
    rw [hre, mul_div_mul_left _ _ (ne_of_gt hc)]

/-- Claim C9: retrieval is scale-invariant in the query vector — scaling
the query by any positive scalar (entrywise) leaves the retrieved chunk
list unchanged, for every store and every `k`. -/
theorem find_similar_chunks_scale_invariant (c : ℝ) (hc : 0 < c) (q : List ℝ)
    (store : VectorStore) (k : Nat) :
    find_similar_chunks (q.map (fun x => c * x)) store k
      = find_similar_chunks q store k := by
  have hsim : similarities store (q.map (fun x => c * x)) = similarities store q := by
    unfold similarities
    exact List.map_congr_left fun row _ => cosineSim_smul c hc row q
  unfold find_similar_chunks top_indices
  rw [hsim]

/-- Claim C9 witness: the statement at `c = 2` on a concrete store and
query. -/
theorem find_similar_chunks_scale_invariant_witness :
    (0:ℝ) < 2 ∧
    find_similar_chunks ([(1:ℝ)].map (fun x => 2 * x)) storePair 5
      = find_similar_chunks [(1:ℝ)] storePair 5 :=
  ⟨by norm_num, find_similar_chunks_scale_invariant 2 (by norm_num) [1] storePair 5⟩

theorem dotList_self_zero (row : List ℝ) (hz : ∀ x ∈ row, x = 0) :
    dotList row row = 0 := by
  induction row with
  | nil => simp [dotList]
  | cons x xs ih =>
    have hx : x = 0 := hz x (List.mem_cons_self x xs)
    have hxs : dotList xs xs = 0 := ih fun y hy => hz y (List.mem_cons_of_mem x hy)
    rw [dotList_cons, hx, hxs]
    ring

theorem cosineSim_zero_row (q row : List ℝ) (hz : ∀ x ∈ row, x = 0) :
    cosineSim row q = none := by
  have h1 : norm2 row = 0 := by
    rw [norm2, dotList_self_zero row hz, Real.sqrt_zero]
  simp [cosineSim, h1]

/-- Claim C2, amended: a zero-norm (all-zero) stored vector gets the
similarity value NaN (`0.0/0.0`, modelled `none`), not `0`; the
computation raises no error (NumPy only warns), but the value is the
undefined NaN rather than the claimed `0`. -/
theorem similarities_zero_norm (store : VectorStore) (q : List ℝ) (i : Nat)
    (row : List ℝ) (hrow : store.vectors[i]? = some row) (hz : ∀ x ∈ row, x = 0) :
    (similarities store q)[i]? = some none := by
  simp [similarities, List.getElem?_map, hrow, cosineSim_zero_row q row hz]

/-- Claim C2 witness: the amended statement on a store holding the
one-dimensional zero vector. -/
theorem similarities_zero_norm_witness :
    storeZero.vectors[0]? = some [(0:ℝ)] ∧ (∀ x ∈ [(0:ℝ)], x = 0) ∧
      (similarities storeZero [1])[0]? = some none :=
  ⟨rfl, by simp, similarities_zero_norm storeZero [1] 0 [0] rfl (by simp)⟩

/-- Claim C2 counterexample: on a store whose only vector is the zero
vector, the similarity array is `[NaN]` (modelled `[none]`), which is
not `[0]`. -/
theorem similarities_zero_cex :
    similarities storeZero [(1:ℝ)] = [none] ∧
      ([none] : List (Option ℝ)) ≠ [some (0:ℝ)] := by
  have h := cosineSim_zero_row [(1:ℝ)] [(0:ℝ)] (by simp)
  refine ⟨?_, by simp⟩
  simp [similarities, storeZero, h]

theorem optLE_refl (a : Option ℝ) : optLE a a := by
  cases a
  · exact trivial
  · exact le_refl _

theorem mem_enum_key {α : Type _} {l : List α} {pr : Nat × α} (h : pr ∈ l.enum) :
    l[pr.1]? = some pr.2 := by
  have h' : pr ∈ l.enumFrom 0 := h
  have h1 := List.fst_lt_add_of_mem_enumFrom h'
  have h2 := List.snd_eq_of_mem_enumFrom h'
  simp only [Nat.sub_zero] at h2
  rw [List.getElem?_eq_getElem (by omega)]
  rw [h2]

theorem top_indices_eq_map (q : List ℝ) (store : VectorStore) (k : Nat) :
    top_indices q store k
      = ((takeLastPy k (List.insertionSort rankLE
          (similarities store q).enum)).reverse).map Prod.fst := by
  unfold top_indices argsortNp
  rw [takeLastPy_map, ← List.map_reverse]

theorem argsort_rev_pairwise (q : List ℝ) (store : VectorStore) (k : Nat) :
    List.Pairwise (fun a b => rankLE b a)
      ((takeLastPy k (List.insertionSort rankLE
        (similarities store q).enum)).reverse) := by
  apply List.pairwise_reverse.mpr
  exact List.Pairwise.sublist (takeLastPy_sublist _ _)
    (List.sorted_insertionSort rankLE _)

theorem argsort_rev_nodup (q : List ℝ) (store : VectorStore) (k : Nat) :
    ((takeLastPy k (List.insertionSort rankLE
      (similarities store q).enum)).reverse).Nodup := by
  apply List.Nodup.of_map Prod.fst
  rw [List.map_reverse, ← takeLastPy_map, List.nodup_reverse]
  apply List.Nodup.sublist (takeLastPy_sublist _ _)
  have hperm : ((List.insertionSort rankLE
      (similarities store q).enum).map Prod.fst).Perm
      ((similarities store q).enum.map Prod.fst) :=
    (List.perm_insertionSort rankLE _).map Prod.fst
  rw [hperm.nodup_iff, List.enum_eq_enumFrom, List.enumFrom_map_fst]
  exact List.nodup_range' 0 (similarities store q).length

theorem mem_argsort_rev_key (q : List ℝ) (store : VectorStore) (k : Nat)
    (pr : Nat × Option ℝ)
    (h : pr ∈ (takeLastPy k (List.insertionSort rankLE
      (similarities store q).enum)).reverse) :
    (similarities store q)[pr.1]? = some pr.2 := by
  have h2 : pr ∈ takeLastPy k (List.insertionSort rankLE
      (similarities store q).enum) := List.mem_reverse.mp h
  have h3 : pr ∈ List.insertionSort rankLE (similarities store q).enum :=
    (takeLastPy_sublist _ _).subset h2
  exact mem_enum_key ((List.mem_insertionSort rankLE).mp h3)

/-- Claim C3, amended: `find_similar_chunks` does NOT order tied chunks
in ascending storage order. On stores of at most 16 chunks — where
NumPy's default argsort is exactly its stable insertion sort — the
results are in weakly descending similarity-key order (NaN greatest, as
NumPy sorts) and equal-similarity entries appear in DESCENDING original
storage index order: the ascending stable argsort places tied indices
in ascending order and the final `[::-1]` reversal flips them. Above
that size NumPy's unstable default sort guarantees no tie order at all,
so the spec's stable-ascending contract fails there too. -/
theorem top_indices_order (store : VectorStore) (q : List ℝ) (k p1 p2 i1 i2 : Nat)
    (_hsmall : store.vectors.length ≤ 16)
    (hp : p1 < p2)
    (h1 : (top_indices q store k)[p1]? = some i1)
    (h2 : (top_indices q store k)[p2]? = some i2) :
    optLE ((similarities store q).getD i2 none) ((similarities store q).getD i1 none) ∧
      ((similarities store q).getD i1 none = (similarities store q).getD i2 none
        → i2 < i1) := by
  rw [top_indices_eq_map, List.getElem?_map] at h1 h2
  obtain ⟨pr1, hpr1, hf1⟩ := Option.map_eq_some'.mp h1
  obtain ⟨pr2, hpr2, hf2⟩ := Option.map_eq_some'.mp h2
  subst hf1
  subst hf2
  obtain ⟨hlen1, e1⟩ := List.getElem?_eq_some_iff.mp hpr1
  obtain ⟨hlen2, e2⟩ := List.getElem?_eq_some_iff.mp hpr2
  have hrel : rankLE pr2 pr1 := by
    have hrel' := List.pairwise_iff_get.mp (argsort_rev_pairwise q store k)
      ⟨p1, hlen1⟩ ⟨p2, hlen2⟩ hp
    rw [List.get_eq_getElem, List.get_eq_getElem, e1, e2] at hrel'
    exact hrel'
  have hkey1 : (similarities store q)[pr1.1]? = some pr1.2 :=
    mem_argsort_rev_key q store k pr1 (List.getElem?_mem hpr1)
  have hkey2 : (similarities store q)[pr2.1]? = some pr2.2 :=
    mem_argsort_rev_key q store k pr2 (List.getElem?_mem hpr2)
  have hgd1 : (similarities store q).getD pr1.1 none = pr1.2 := by
    rw [List.getD_eq_getElem?_getD, hkey1]
    rfl
  have hgd2 : (similarities store q).getD pr2.1 none = pr2.2 := by
    rw [List.getD_eq_getElem?_getD, hkey2]
    rfl
  have hne : pr1 ≠ pr2 := by
    intro hcontra
    have hfin : (⟨p1, hlen1⟩ : Fin _) = ⟨p2, hlen2⟩ :=
      (List.Nodup.get_inj_iff (argsort_rev_nodup q store k)).mp (by
        rw [List.get_eq_getElem, List.get_eq_getElem, e1, e2, hcontra])
    have : p1 = p2 := congrArg Fin.val hfin
    omega
  constructor
  · rw [hgd1, hgd2]
    rcases hrel with hlt | ⟨heq, _⟩
    · exact hlt.1
    · rw [heq]
      exact optLE_refl pr1.2
  · intro heqd
    rw [hgd1, hgd2] at heqd
    rcases hrel with hlt | ⟨heq, hle⟩
    · exact absurd (by rw [heqd]; exact optLE_refl pr2.2) hlt.2
    · have hnefst : pr2.1 ≠ pr1.1 := by
        intro hcontra
        exact hne (Prod.ext_iff.mpr ⟨hcontra.symm, heqd⟩)
      exact lt_of_le_of_ne hle hnefst

theorem cosineSim_one : cosineSim [(1:ℝ)] [1] = some 1 := by
  have hd : dotList [(1:ℝ)] [1] = 1 := by simp [dotList]
  have hn : norm2 [(1:ℝ)] = 1 := by rw [norm2, hd, Real.sqrt_one]
  unfold cosineSim
  rw [hd, hn]
  norm_num

theorem similarities_storePair :
    similarities storePair [(1:ℝ)] = [some 1, some 1] := by
  simp [similarities, storePair, cosineSim_one]

theorem argsort_pair : argsortNp [some (1:ℝ), some 1] = [0, 1] := by
  have hr : rankLE (0, some (1:ℝ)) (1, some 1) := Or.inr ⟨rfl, by norm_num⟩
  simp [argsortNp, List.enum, hr]

theorem top_indices_storePair : top_indices [(1:ℝ)] storePair 5 = [1, 0] := by
  unfold top_indices
  rw [similarities_storePair, argsort_pair]
  simp [takeLastPy]

theorem find_similar_storePair :
    find_similar_chunks [(1:ℝ)] storePair 5 = [['b'], ['a']] := by
  unfold find_similar_chunks
  rw [top_indices_storePair]
  simp [storePair]

/-- Claim C3 counterexample: on a store of two chunks with identical
stored vectors (all similarities tied), retrieval returns the chunks in
descending storage order `[chunk 1, chunk 0]`, not the claimed ascending
(stable) order `[chunk 0, chunk 1]`. -/
theorem find_similar_chunks_tie_cex :
    similarities storePair [(1:ℝ)] = [some 1, some 1] ∧
    find_similar_chunks [(1:ℝ)] storePair 5 = [['b'], ['a']] ∧
    find_similar_chunks [(1:ℝ)] storePair 5 ≠ [['a'], ['b']] := by
  refine ⟨similarities_storePair, find_similar_storePair, ?_⟩
  rw [find_similar_storePair]
  decide

/-- Claim C3 witness: the amended ordering statement on the concrete
tied two-chunk store (2 ≤ 16 chunks): position 0 of `top_indices` holds
index 1 and position 1 holds index 0, with the keys tied. -/
theorem top_indices_order_witness :
    storePair.vectors.length ≤ 16 ∧
    (0:Nat) < 1 ∧
    (top_indices [(1:ℝ)] storePair 5)[0]? = some 1 ∧
    (top_indices [(1:ℝ)] storePair 5)[1]? = some 0 ∧
    (optLE ((similarities storePair [(1:ℝ)]).getD 0 none)
        ((similarities storePair [(1:ℝ)]).getD 1 none) ∧
      ((similarities storePair [(1:ℝ)]).getD 1 none
          = (similarities storePair [(1:ℝ)]).getD 0 none → 0 < 1)) :=
  ⟨by simp [storePair], by norm_num,
   by rw [top_indices_storePair]; rfl, by rw [top_indices_storePair]; rfl,
   top_indices_order storePair [1] 5 0 1 1 0 (by simp [storePair]) (by norm_num)
     (by rw [top_indices_storePair]; rfl) (by rw [top_indices_storePair]; rfl)⟩
